import Mathlib

/-!
Verification development for the yas-mcp server core: a shallow embedding of
the Schema Compiler (tool-name and schema generation), the Adjuster, the
Route Executor Factory, and the JSON-RPC Protocol Engine (processor and
transport runner), together with theorems settling the specification claims.

Strings are manipulated through their underlying character lists; serde_json
values are modelled by the inductive `Json` below, with objects as ordered
association lists (no claim below depends on key ordering).
-/

namespace YasMcp

/-- Model of a `serde_json::Value`: JSON values with objects as association
lists of key/value pairs. -/
inductive Json where
  | null
  | bool (b : Bool)
  | num (n : Int)
  | str (s : String)
  | arr (elems : List Json)
  | obj (fields : List (String × Json))

/-- First value bound to key `k` in an association list of JSON fields. -/
def jLookup (fields : List (String × Json)) (k : String) : Option Json :=
  match fields with
  | [] => none
  | (k', v) :: rest => if k' = k then some v else jLookup rest k

/-- Whether an association list of JSON fields carries key `k`. -/
def hasKey (fields : List (String × Json)) (k : String) : Bool :=
  (jLookup fields k).isSome

/-- Removal of a key from an association list (model of `Map::remove`). -/
def removeKey (fields : List (String × Json)) (k : String) : List (String × Json) :=
  fields.filter (fun p => decide (p.1 ≠ k))

/-- `Json.as_object()` of the Rust code: the field list when the value is an
object, otherwise `none`. -/
def Json.asObject : Json → Option (List (String × Json))
  | .obj fields => some fields
  | _ => none

/-- `Json.as_str()` of the Rust code. -/
def Json.asStr : Json → Option String
  | .str s => some s
  | _ => none

/-- Whether a JSON value is a string (the pattern
`serde_json::Value::String(_)` of the Rust code). -/
def Json.isString : Json → Bool
  | .str _ => true
  | _ => false

/-! ## String helpers shared by the embedded components -/

/-- Rust `str::to_lowercase` on the ASCII fragment exercised by the code. -/
def strToLower (s : String) : String := String.mk (s.data.map Char.toLower)

/-- Rust `str::to_uppercase` on the ASCII fragment exercised by the code. -/
def strToUpper (s : String) : String := String.mk (s.data.map Char.toUpper)

/-! ## Tool-name normalization (`SwaggerParser::normalize_tool_name`) -/

/-- Every occurrence of the character `c` replaced by the character list `r`
(the Rust `str::replace(c, r)` for a one-character pattern). -/
def replaceChar (c : Char) (r : List Char) : List Char → List Char
  | [] => []
  | ch :: rest => (if ch = c then r else [ch]) ++ replaceChar c r rest

/-- Every `{` and every `}` replaced by `__`
(the Rust `str::replace(['{', '}'], "__")`). -/
def replaceBraces : List Char → List Char
  | [] => []
  | ch :: rest => (if ch = '{' ∨ ch = '}' then ['_', '_'] else [ch]) ++ replaceBraces rest

/-- `SwaggerParser::normalize_tool_name`: strip leading slashes, replace `/`
with `_`, replace `{` and `}` with `__`, then prepend the lowercased method
and an underscore and lowercase the whole string. -/
def normalize_tool_name (path method : String) : String :=
  let p1 := path.data.dropWhile (fun ch => ch = '/')
  let p2 := replaceChar '/' ['_'] p1
  let p3 := replaceBraces p2
  strToLower (strToLower method ++ "_" ++ String.mk p3)

/-- Single-pass character transform used to state the amended description of
tool-name normalization. -/
def normalizePathChars : List Char → List Char
  | [] => []
  | ch :: rest =>
    (if ch = '/' then ['_']
     else if ch = '{' ∨ ch = '}' then ['_', '_']
     else [ch]) ++ normalizePathChars rest

/-- Amended-specification form of the normalizer: one pass over the path
characters after stripping leading slashes, prefixed with the lowercased
method, the whole result lowercased. -/
def normalizeAmendedSpec (path method : String) : String :=
  strToLower (strToLower method ++ "_" ++
    String.mk (normalizePathChars (path.data.dropWhile (fun ch => ch = '/'))))

/-! ## Adjuster (`src/internal/parser/adjuster.rs`) -/

/-- One entry of the `routes:` allow-list of the adjustments file. -/
structure RouteSelection where
  path : String
  methods : List String

/-- One `method`/`new_description` pair of a description override. -/
structure DescriptionUpdate where
  method : String
  new_description : String

/-- One entry of the `descriptions:` list of the adjustments file. -/
structure RouteDescription where
  path : String
  updates : List DescriptionUpdate

/-- Rust `str::trim_end_matches('/')`: every trailing slash removed. -/
def trimTrailingSlashes (s : String) : String :=
  String.mk (s.data.reverse.dropWhile (fun ch => ch = '/')).reverse

/-- The scan over route selections inside `Adjuster::exists_in_mcp`: the
first selection whose path matches after trailing-slash trimming decides the
answer by a case-insensitive method-list membership test. -/
def exists_in_mcp_scan : List RouteSelection → String → String → Bool
  | [], _, _ => false
  | sel :: rest, route, method =>
    if trimTrailingSlashes sel.path = trimTrailingSlashes route then
      sel.methods.any (fun m => strToUpper m = strToUpper method)
    else exists_in_mcp_scan rest route method

/-- `Adjuster::exists_in_mcp`: with no configured routes every query is
allowed; otherwise the configured selections are scanned in order. -/
def exists_in_mcp (adjRoutes : List RouteSelection) (route method : String) : Bool :=
  if adjRoutes.isEmpty then true
  else exists_in_mcp_scan adjRoutes route method

/-- Rust `str::trim_end_matches` limited to one trailing slash: the reading
of "stripping a single trailing slash" used by the claim under test. -/
def trimOneTrailingSlash (s : String) : String :=
  match s.data.getLast? with
  | some '/' => String.mk s.data.dropLast
  | _ => s

/-- The claimed behaviour of `exists_in_mcp`: identical scan, but each side
of the path comparison is stripped of at most one trailing slash. -/
def exists_in_mcp_claim_scan : List RouteSelection → String → String → Bool
  | [], _, _ => false
  | sel :: rest, route, method =>
    if trimOneTrailingSlash sel.path = trimOneTrailingSlash route then
      sel.methods.any (fun m => strToUpper m = strToUpper method)
    else exists_in_mcp_claim_scan rest route method

/-- `exists_in_mcp` as the claim words it (single trailing slash stripped). -/
def exists_in_mcp_claim (adjRoutes : List RouteSelection) (route method : String) : Bool :=
  if adjRoutes.isEmpty then true
  else exists_in_mcp_claim_scan adjRoutes route method

/-- Amended-specification form of `exists_in_mcp`: the first selection whose
path matches after removing all trailing slashes from both sides decides the
answer. -/
def existsInMcpAmended (adjRoutes : List RouteSelection) (route method : String) : Bool :=
  if adjRoutes.isEmpty then true
  else
    match adjRoutes.find?
        (fun sel => trimTrailingSlashes sel.path = trimTrailingSlashes route) with
    | some sel => sel.methods.any (fun m => strToUpper m = strToUpper method)
    | none => false

/-- The scan over update entries inside `Adjuster::get_description`. -/
def find_update : List DescriptionUpdate → String → Option String
  | [], _ => none
  | u :: rest, method =>
    if u.method = method then some u.new_description else find_update rest method

/-- The scan over description entries inside `Adjuster::get_description`:
the first exact path match decides (the loop breaks after it). -/
def get_description_scan : List RouteDescription → String → String → String → String
  | [], _, _, original => original
  | d :: rest, route, method, original =>
    if d.path = route then
      match find_update d.updates method with
      | some newDesc => newDesc
      | none => original
    else get_description_scan rest route method original

/-- `Adjuster::get_description`: the override text when an exact path entry
holds an exact method update, otherwise the original description. -/
def get_description (descs : List RouteDescription) (route method original : String) : String :=
  if descs.isEmpty then original
  else get_description_scan descs route method original

/-! ## Route configuration (`src/internal/requester/types.rs`)

`header_params` is the field read by `HttpRequester::build_route_executor`
(`config.method_config.header_params`); the parser never populates it. -/

/-- `MethodConfig` of the requester types. -/
structure MethodConfig where
  query_params : List String
  header_params : List String
  form_fields : List String

/-- `RouteConfig` of the requester types (the `file_upload` member is never
consulted by the embedded operations and is omitted). -/
structure RouteConfig where
  path : String
  method : String
  description : String
  headers : List (String × String)
  parameters : List (String × String)
  method_config : MethodConfig

/-! ## Schema compiler (`src/internal/parser/_parser.rs`) -/

/-- Split of a character list at every occurrence of `c`
(Rust `str::split(c)`). -/
def splitOnChar (c : Char) : List Char → List (List Char)
  | [] => [[]]
  | ch :: rest =>
    match splitOnChar c rest with
    | [] => [[ch]]
    | seg :: segs =>
      if ch = c then [] :: seg :: segs else (ch :: seg) :: segs

/-- `SwaggerParser::extract_path_params`: the `/`-separated segments of the
path that start with `{` and end with `}`, with those braces trimmed. -/
def extract_path_params (path : String) : List String :=
  ((splitOnChar '/' path.data).filter
      (fun seg => seg.head? = some '{' ∧ seg.getLast? = some '}')).map
    (fun seg =>
      String.mk ((seg.dropWhile (fun ch => ch = '{')).reverse.dropWhile
        (fun ch => ch = '}')).reverse)

/-- `serde_json::Map::insert`: replace the value in place when the key is
present, append otherwise. -/
def insertKey (fields : List (String × Json)) (k : String) (v : Json) : List (String × Json) :=
  match fields with
  | [] => [(k, v)]
  | (k', v') :: rest => if k' = k then (k, v) :: rest else (k', v') :: insertKey rest k v

/-- The `properties` map accumulated by `SwaggerParser::create_input_schema`.
The operation-dependent lookups of `self` are supplied as arguments:
`getParamSchema` stands for `self.get_parameter_schema(route, param,
"query")` and `bodySchema` for `self.get_body_schema(route)`. -/
def input_schema_properties (route : RouteConfig)
    (getParamSchema : String → Option Json) (bodySchema : Option Json) :
    List (String × Json) :=
  let props0 := (extract_path_params route.path).foldl
    (fun acc param => insertKey acc param (Json.obj
      [("type", Json.str "string"),
       ("description", Json.str ("Path parameter: " ++ param))])) []
  let props1 := route.method_config.query_params.foldl
    (fun acc param => insertKey acc param
      (match getParamSchema param with
       | some s => s
       | none => Json.obj
          [("type", Json.str "string"),
           ("description", Json.str ("Query parameter: " ++ param))])) props0
  if route.method = "POST" ∨ route.method = "PUT" ∨ route.method = "PATCH" then
    match bodySchema with
    | some b => insertKey props1 "body" b
    | none => props1
  else props1

/-- `SwaggerParser::create_input_schema`: `type` always, `properties` only
when at least one property was accumulated, `required` only when a path
parameter exists. -/
def create_input_schema (route : RouteConfig)
    (getParamSchema : String → Option Json) (bodySchema : Option Json) :
    List (String × Json) :=
  let properties := input_schema_properties route getParamSchema bodySchema
  let required := extract_path_params route.path
  let schema0 := insertKey [] "type" (Json.str "object")
  let schema1 :=
    if properties.isEmpty then schema0
    else insertKey schema0 "properties" (Json.obj properties)
  if required.isEmpty then schema1
  else insertKey schema1 "required" (Json.arr (required.map Json.str))

mutual
/-- OpenAPI schemas as consumed by `SwaggerParser::schema_to_json_schema`:
the `SchemaKind::Type` shapes the code distinguishes, plus `otherT` for
every other kind (the catch-all `_` arm). A property or items position may
be a `$ref` (whose target the code never reads). -/
inductive OASchema where
  | objectT (props : List SchemaProp) (required : List String) (descr : Option String)
  | stringT (descr : Option String)
  | numberT (descr : Option String)
  | integerT (descr : Option String)
  | booleanT (descr : Option String)
  | arrayT (items : Option RefOrSchema) (descr : Option String)
  | otherT (descr : Option String)
inductive RefOrSchema where
  | reference
  | item (s : OASchema)
inductive SchemaProp where
  | mk (name : String) (schema : RefOrSchema)
end

/-- serde serialization of an `Option<String>` description field. -/
def optStrToJson : Option String → Json
  | some s => Json.str s
  | none => Json.null

mutual
/-- `SwaggerParser::schema_to_json_schema` translating one OpenAPI schema
into a JSON schema value. -/
def schema_to_json_schema : OASchema → Json
  | .objectT props required _ =>
    let properties := schema_props_to_json props
    let base := [("type", Json.str "object"), ("properties", Json.obj properties)]
    if required.isEmpty then Json.obj base
    else Json.obj (base ++ [("required", Json.arr (required.map Json.str))])
  | .stringT d => Json.obj [("type", Json.str "string"), ("description", optStrToJson d)]
  | .numberT d => Json.obj [("type", Json.str "number"), ("description", optStrToJson d)]
  | .integerT d => Json.obj [("type", Json.str "integer"), ("description", optStrToJson d)]
  | .booleanT d => Json.obj [("type", Json.str "boolean"), ("description", optStrToJson d)]
  | .arrayT items d =>
    let itemsJson : Json :=
      match items with
      | some (.item s) => schema_to_json_schema s
      | some .reference => Json.obj []
      | none => Json.obj []
    Json.obj [("type", Json.str "array"), ("items", itemsJson),
              ("description", optStrToJson d)]
  | .otherT d => Json.obj [("type", Json.str "object"), ("description", optStrToJson d)]
/-- The `for` loop over `object_type.properties` inside the object arm of
`SwaggerParser::schema_to_json_schema`; `$ref` properties are skipped. -/
def schema_props_to_json : List SchemaProp → List (String × Json)
  | [] => []
  | .mk _ .reference :: rest => schema_props_to_json rest
  | .mk name (.item s) :: rest => (name, schema_to_json_schema s) :: schema_props_to_json rest
end

/-- The description string resolved by `SwaggerParser::create_route_config`
before adjuster overrides: the operation's `description`, else its
`summary`, else the empty string. -/
def resolve_operation_description (descr summary : Option String) : String :=
  match descr with
  | some d => d
  | none =>
    match summary with
    | some s => s
    | none => ""

/-- The description field of the `RouteConfig` built by
`SwaggerParser::create_route_config`: the resolved operation description run
through `Adjuster::get_description`. -/
def create_route_config_description (descs : List RouteDescription)
    (path method : String) (descr summary : Option String) : String :=
  get_description descs path method (resolve_operation_description descr summary)

/-- The tool description produced by `SwaggerParser::generate_tool`:
`format!("{} {} - {}", route.method, route.path, route.description)`. -/
def generate_tool_description (route : RouteConfig) : String :=
  route.method ++ " " ++ route.path ++ " - " ++ route.description

/-! ## JSON serialization (`serde_json::to_string` on the fragment used) -/

/-- One hexadecimal digit. -/
def hexDigit (n : Nat) : Char :=
  if n < 10 then Char.ofNat (n + 48) else Char.ofNat (n + 87)

/-- serde_json escaping of one character inside a string literal. -/
def escapeJsonChar (c : Char) : String :=
  if c = '"' then "\\\""
  else if c = '\\' then "\\\\"
  else if c = '\n' then "\\n"
  else if c = '\r' then "\\r"
  else if c = '\t' then "\\t"
  else if c.toNat < 32 then
    "\\u00" ++ String.mk [hexDigit (c.toNat / 16), hexDigit (c.toNat % 16)]
  else String.mk [c]

/-- serde_json rendering of a string literal, quotes included. -/
def encodeJsonString (s : String) : String :=
  "\"" ++ String.join (s.data.map escapeJsonChar) ++ "\""

mutual
/-- `serde_json::to_string` on the modelled JSON values. -/
def jsonToString : Json → String
  | .null => "null"
  | .bool true => "true"
  | .bool false => "false"
  | .num n => toString n
  | .str s => encodeJsonString s
  | .arr elems => "[" ++ jsonArrToString elems ++ "]"
  | .obj fields => "\x7b" ++ jsonObjToString fields ++ "\x7d"
/-- Comma-separated rendering of array elements. -/
def jsonArrToString : List Json → String
  | [] => ""
  | [x] => jsonToString x
  | x :: y :: rest => jsonToString x ++ "," ++ jsonArrToString (y :: rest)
/-- Comma-separated rendering of object members. -/
def jsonObjToString : List (String × Json) → String
  | [] => ""
  | [(k, v)] => encodeJsonString k ++ ":" ++ jsonToString v
  | (k, v) :: p :: rest =>
    encodeJsonString k ++ ":" ++ jsonToString v ++ "," ++ jsonObjToString (p :: rest)
end

/-! ## JSON-RPC protocol types (`src/internal/mcp/protocol.rs`) -/

/-- `JsonRpcRequest`: the raw request envelope. -/
structure JsonRpcRequest where
  jsonrpc : String
  id : Option Json
  method : String
  params : Option Json

/-- `JsonRpcError`: code, message and optional data of an error object. -/
structure JsonRpcError where
  code : Int
  message : String
  data : Option Json

/-- `JsonRpcResponse`: the raw response envelope; `result` and `error` carry
serde `skip_serializing_if` attributes, `id` does not. -/
structure JsonRpcResponse where
  jsonrpc : String
  id : Option Json
  result : Option Json
  error : Option JsonRpcError

/-- `McpMethod` of the protocol module. -/
inductive McpMethod where
  | InitializeM
  | InitializedM
  | ToolsListM
  | ToolsCallM
  | PingM
  | UnknownM (s : String)

/-- `McpMethod::from(&str)`. -/
def mcpMethodFrom (s : String) : McpMethod :=
  if s = "initialize" then .InitializeM
  else if s = "notifications/initialized" then .InitializedM
  else if s = "tools/list" then .ToolsListM
  else if s = "tools/call" then .ToolsCallM
  else if s = "ping" then .PingM
  else .UnknownM s

/-! ## Tool execution (`src/internal/server/tool/handler.rs`) and registry -/

/-- `HttpResponse` of the requester: status, body (UTF-8 text of the raw
bytes) and headers. -/
structure HttpResponse where
  status_code : Nat
  body : String
  headers : List (String × String)

/-- `rmcp::model::CallToolRequestParam`: tool name and optional argument
object. -/
structure CallToolRequestParam where
  name : String
  arguments : Option (List (String × Json))

/-- `rmcp::model::CallToolRequest` restricted to the member the code reads. -/
structure CallToolRequest where
  params : CallToolRequestParam

/-- A `RawContent::Text` content item of a tool result. -/
structure TextContent where
  text : String

/-- `rmcp::model::CallToolResult` restricted to the members the code sets:
text content items and the `isError` flag. -/
structure CallToolResult where
  content : List TextContent
  is_error : Option Bool

/-- serde serialization of a `CallToolResult` (camelCase `isError`, `None`
members skipped). -/
def callToolResultToJson (r : CallToolResult) : Json :=
  Json.obj
    ([("content", Json.arr (r.content.map (fun c =>
        Json.obj [("type", Json.str "text"), ("text", Json.str c.text)])))] ++
      (match r.is_error with
       | some b => [("isError", Json.bool b)]
       | none => []))

/-- serde deserialization of `CallToolRequestParam` from a JSON value:
`name` must be a string member; `arguments`, when present and not null,
must be an object. -/
def parseCallToolParam (v : Json) : Option CallToolRequestParam :=
  match v with
  | .obj fields =>
    (match jLookup fields "name" with
     | some (.str nm) =>
       (match jLookup fields "arguments" with
        | none => some ⟨nm, none⟩
        | some .null => some ⟨nm, none⟩
        | some (.obj args) => some ⟨nm, some args⟩
        | some _ => none)
     | _ => none)
  | _ => none

/-- `ToolHandler::convert_arguments_to_json`. -/
def convert_arguments_to_json (args : List (String × Json)) : String :=
  jsonToString (Json.obj args)

/-- The argument string handed to the route executor by the handler: the
serialized arguments, or `"\x7b\x7d"` when the request carries none. -/
def handler_params_string (p : CallToolRequestParam) : String :=
  match p.arguments with
  | some args => convert_arguments_to_json args
  | none => "\x7b\x7d"

/-- `ToolHandler::create_handler`: wraps a route executor (modelled as a
function from the serialized argument string to an `HttpResponse` or an
error message) into a tool executor producing a `CallToolResult`; status
codes at least 400 mark the result as an error while keeping the protocol
call successful. -/
def create_handler (tool_name : String)
    (executor : String → Except String HttpResponse) :
    CallToolRequest → Except String CallToolResult :=
  fun request =>
    match executor (handler_params_string request.params) with
    | .error e =>
      .error ("Failed to execute request for tool " ++ tool_name ++ ": " ++ e)
    | .ok response =>
      if response.status_code ≥ 400 then
        .ok ⟨[⟨response.body⟩], some true⟩
      else
        .ok ⟨[⟨response.body⟩], some false⟩

/-- `RegisteredTool` of the tool registry. -/
structure RegisteredTool where
  metadata : Json
  executor : CallToolRequest → Except String CallToolResult

/-- `ToolRegistry::get`: lookup by tool name. -/
def registryGet (tools : List (String × RegisteredTool)) (name : String) :
    Option RegisteredTool :=
  match tools with
  | [] => none
  | (n, t) :: rest => if n = name then some t else registryGet rest name

/-! ## Processor (`McpProcessor::process_request`) -/

/-- `McpProcessor::process_request`: the pure JSON-RPC dispatch. The server
identity serialization is supplied as `server_info`; the registry is the
association list `tools`. -/
def process_request (server_info : Json)
    (tools : List (String × RegisteredTool)) (request : JsonRpcRequest) :
    JsonRpcResponse :=
  match mcpMethodFrom request.method with
  | .InitializeM => ⟨"2.0", request.id, some server_info, none⟩
  | .InitializedM => ⟨"2.0", none, none, none⟩
  | .ToolsListM =>
    ⟨"2.0", request.id,
      some (Json.obj [("tools", Json.arr (tools.map (fun t => t.2.metadata)))]),
      none⟩
  | .ToolsCallM =>
    (match parseCallToolParam ((request.params).getD Json.null) with
     | some p =>
       (match registryGet tools p.name with
        | some tool =>
          (match tool.executor ⟨p⟩ with
           | .ok result =>
             ⟨"2.0", request.id, some (callToolResultToJson result), none⟩
           | .error e =>
             ⟨"2.0", request.id, none, some ⟨-32000, e, none⟩⟩)
        | none =>
          ⟨"2.0", request.id, none, some ⟨-32601, "Tool not found", none⟩⟩)
     | none =>
       ⟨"2.0", request.id, none, some ⟨-32602, "Invalid params", none⟩⟩)
  | .PingM => ⟨"2.0", request.id, some (Json.obj []), none⟩
  | .UnknownM _ =>
    ⟨"2.0", request.id, none, some ⟨-32601, "Method not found", none⟩⟩

/-! ## Transport runner (`src/internal/transport/runner.rs`) -/

/-- serde serialization of a `JsonRpcResponse` as a JSON value
(`McpProcessor::serialize_response`): `id` is always emitted (null when
absent), `result` and `error` only when present. -/
def serialize_response (response : JsonRpcResponse) : Json :=
  Json.obj
    ([("jsonrpc", Json.str response.jsonrpc),
      ("id", (response.id).getD Json.null)] ++
      (match response.result with
       | some r => [("result", r)]
       | none => []) ++
      (match response.error with
       | some e =>
         [("error", Json.obj
           ([("code", Json.num e.code), ("message", Json.str e.message)] ++
             (match e.data with
              | some d => [("data", d)]
              | none => [])))]
       | none => []))

/-- One read from the transport, with the parse attempt of
`McpProcessor::parse_request` applied at the serde boundary: a message that
parsed (or failed with an error message), the closed signal, or a fatal
transport error. -/
inductive RunnerInput where
  | message (parsed : Except String JsonRpcRequest)
  | closed
  | fatal (e : String)

/-- `TransportRunner::run` over a finite input stream: parse failures are
answered in place with a -32700 response and the loop continues; parsed
requests are processed and answered only when they carry an `id`; the
closed signal ends the loop cleanly; a fatal transport error aborts it. -/
def run (proc : JsonRpcRequest → JsonRpcResponse) :
    List RunnerInput → Except String (List Json)
  | [] => .ok []
  | .closed :: _ => .ok []
  | .fatal e :: _ => .error e
  | .message (.error e) :: rest =>
    (match run proc rest with
     | .ok outs =>
       .ok (serialize_response ⟨"2.0", none, none,
         some ⟨-32700, "Parse error: " ++ e, none⟩⟩ :: outs)
     | .error er => .error er)
  | .message (.ok req) :: rest =>
    let response := proc req
    (match req.id with
     | some _ =>
       (match run proc rest with
        | .ok outs => .ok (serialize_response response :: outs)
        | .error er => .error er)
     | none => run proc rest)

/-! ## Route executor factory (`HttpRequester::build_route_executor`) -/

/-- `EndpointConfig`: base URL and endpoint-level default headers. -/
structure EndpointConfig where
  base_url : String
  headers : List (String × String)

/-- The outgoing HTTP request assembled by the executor closure, captured
just before `send()`: URL after path substitution, method, headers, query
pairs and optional JSON body. -/
structure BuiltRequest where
  url : String
  method : String
  headers : List (String × String)
  query : List (String × Json)
  body : Option Json

/-- `HashMap::entry(k).or_insert(v)`: insert only when the key is absent. -/
def orInsert (headers : List (String × String)) (k v : String) :
    List (String × String) :=
  if headers.any (fun p => p.1 = k) then headers else headers ++ [(k, v)]

/-- The merged static header set of `build_route_executor`: route headers
first, endpoint default headers filling in only missing keys. -/
def merged_static_headers (service_headers route_headers : List (String × String)) :
    List (String × String) :=
  service_headers.foldl (fun acc p => orInsert acc p.1 p.2) route_headers

/-- Whether the pattern is a prefix of the character list. -/
def startsWithSeq : List Char → List Char → Bool
  | [], _ => true
  | _ :: _, [] => false
  | p :: ps, c :: cs => p = c && startsWithSeq ps cs

/-- Whether the pattern occurs somewhere in the character list
(Rust `str::contains`). -/
def containsSeq (pat : List Char) : List Char → Bool
  | [] => startsWithSeq pat []
  | c :: cs => startsWithSeq pat (c :: cs) || containsSeq pat cs

/-- Worker for `replaceSeq`, structurally recursive on the scanned list:
`skip` counts characters of an already-matched pattern occurrence still to
be consumed without emitting or re-matching. -/
def replaceSeqGo (pat rep : List Char) : Nat → List Char → List Char
  | _, [] => []
  | Nat.succ k, _ :: cs => replaceSeqGo pat rep k cs
  | 0, c :: cs =>
    if startsWithSeq pat (c :: cs) then
      rep ++ replaceSeqGo pat rep (pat.length - 1) cs
    else c :: replaceSeqGo pat rep 0 cs

/-- Every occurrence of the (here always non-empty) pattern replaced, left
to right and without overlap (Rust `str::replace` for the multi-character
placeholder patterns of the executor). -/
def replaceSeq (pat rep : List Char) (l : List Char) : List Char :=
  replaceSeqGo pat rep 0 l

/-- The path-substitution loop of the executor: each argument whose value is
a JSON string and whose `\x7b`-`\x7d`-wrapped key occurs in the URL is
substituted into it and its key recorded for removal. -/
def subst_path_params (url : List Char) :
    List (String × Json) → List Char × List String
  | [] => (url, [])
  | (key, value) :: rest =>
    match value with
    | .str s =>
      let placeholder := '{' :: (key.data ++ ['}'])
      if containsSeq placeholder url then
        let next := subst_path_params (replaceSeq placeholder s.data url) rest
        (next.1, key :: next.2)
      else subst_path_params url rest
    | _ => subst_path_params url rest

/-- The dynamic-header loop of the executor: every declared header
parameter still present is removed from the working map and set as a header
(strings verbatim, other values via their JSON rendering). -/
def apply_dynamic_headers :
    List String → List (String × String) → List (String × Json) →
    List (String × String) × List (String × Json)
  | [], headers, params => (headers, params)
  | hk :: rest, headers, params =>
    match jLookup params hk with
    | some val =>
      apply_dynamic_headers rest
        (headers ++ [(hk,
          match val.asStr with
          | some s => s
          | none => jsonToString val)])
        (removeKey params hk)
    | none => apply_dynamic_headers rest headers params

/-- The declared-query-parameter loop of the executor: every declared query
parameter still present is removed from the working map and appended as a
query pair (strings verbatim, other values via their JSON rendering). -/
def apply_query_params :
    List String → List (String × Json) → List (String × Json) →
    List (String × Json) × List (String × Json)
  | [], query, params => (query, params)
  | qk :: rest, query, params =>
    match jLookup params qk with
    | some val =>
      apply_query_params rest
        (query ++ [(qk,
          match val.asStr with
          | some s => Json.str s
          | none => Json.str (jsonToString val))])
        (removeKey params qk)
    | none => apply_query_params rest query params

/-- The request-assembly pipeline of the executor closure, from the working
field map `active_params` up to the `send()` call: path substitution and
removal, method dispatch, static and dynamic headers, declared query
parameters, and the query/body fallback for the leftovers. -/
def route_executor_request_core (service_cfg : EndpointConfig)
    (config : RouteConfig) (active_params : List (String × Json)) :
    Except String BuiltRequest :=
  let url0 := (service_cfg.base_url ++ config.path).data
    let subst := subst_path_params url0 active_params
    let active1 := subst.2.foldl (fun m k => removeKey m k) active_params
    if config.method = "GET" ∨ config.method = "POST" ∨ config.method = "PUT" ∨
        config.method = "DELETE" ∨ config.method = "PATCH" then
      let static_headers :=
        merged_static_headers service_cfg.headers config.headers
      let afterHeaders := apply_dynamic_headers
        config.method_config.header_params static_headers active1
      let afterQuery := apply_query_params
        config.method_config.query_params [] afterHeaders.2
      if afterQuery.2.isEmpty then
        .ok ⟨String.mk subst.1, config.method, afterHeaders.1, afterQuery.1, none⟩
      else if config.method = "GET" then
        .ok ⟨String.mk subst.1, config.method, afterHeaders.1,
          afterQuery.1 ++ afterQuery.2, none⟩
      else
        .ok ⟨String.mk subst.1, config.method, afterHeaders.1, afterQuery.1,
          some (Json.obj afterQuery.2)⟩
    else .error ("Unsupported HTTP method: " ++ config.method)

/-- The body of the closure built by `HttpRequester::build_route_executor`:
serde parse failure (`parsed = none`) is the hard input error; otherwise
the value degrades to a field map via
`as_object().cloned().unwrap_or_default()` and the request is assembled by
`route_executor_request_core`. -/
def route_executor_request (service_cfg : EndpointConfig) (config : RouteConfig)
    (parsed : Option Json) : Except String BuiltRequest :=
  match parsed with
  | none => .error "Failed to parse parameters as JSON"
  | some params_value =>
    route_executor_request_core service_cfg config ((params_value.asObject).getD [])

/-- Error-or-success observation on an executor outcome. -/
def isHardError : Except String BuiltRequest → Bool
  | .error _ => true
  | .ok _ => false

/-- The query pairs of a successfully assembled request. -/
def executor_query : Except String BuiltRequest → List (String × Json)
  | .ok r => r.query
  | .error _ => []

/-! ## Concrete instances used by the theorems below -/

/-- Endpoint with base URL `http://api` and no default headers. -/
def demo_service : EndpointConfig := ⟨"http://api", []⟩

/-- The `/items/\x7bid\x7d` route under GET with declared query parameter
`sort`, as compiled by the parser (content-type header, path-parameter
defaults, no header parameters). -/
def items_get_route : RouteConfig :=
  ⟨"/items/\x7bid\x7d", "GET", "", [("Content-Type", "application/json")],
    [("id", "")], ⟨["sort"], [], []⟩⟩

/-- The same route under POST. -/
def items_post_route : RouteConfig :=
  ⟨"/items/\x7bid\x7d", "POST", "", [("Content-Type", "application/json")],
    [("id", "")], ⟨["sort"], [], []⟩⟩

/-- The argument object of the executor examples. -/
def items_args : Json :=
  Json.obj [("extra", Json.str "x"), ("id", Json.str "5"), ("sort", Json.str "asc")]

/-- A parameterless GET route. -/
def ping_route : RouteConfig := ⟨"/ping", "GET", "", [], [], ⟨[], [], []⟩⟩

/-- A parameterless GET route as compiled by the parser: no path, query or
body parameters. -/
def health_route : RouteConfig :=
  ⟨"/health", "GET", "", [("Content-Type", "application/json")], [], ⟨[], [], []⟩⟩

/-- An adjustments route list whose single entry carries two trailing
slashes. -/
def doubleslash_routes : List RouteSelection := [⟨"/users//", ["GET"]⟩]

/-- The `/users` `[GET]` allow-list of the claimed examples. -/
def users_routes : List RouteSelection := [⟨"/users", ["GET"]⟩]

/-- A route whose operation description carries an HTML tag. -/
def html_route : RouteConfig := ⟨"/x", "GET", "<b>hi</b>", [], [], ⟨[], [], []⟩⟩

/-- A route with an empty operation description. -/
def blank_route : RouteConfig := ⟨"/x", "GET", "", [], [], ⟨[], [], []⟩⟩

/-- A route whose operation description has 800 characters. -/
def long_route : RouteConfig :=
  ⟨"/x", "GET", String.mk (List.replicate 800 'a'), [], [], ⟨[], [], []⟩⟩

/-- A registered tool named `t` whose route executor always fails with
message `boom`. -/
def boom_rex : String → Except String HttpResponse := fun _ => .error "boom"

/-- Registry holding only the tool `t` wrapped by `create_handler`. -/
def boom_tools : List (String × RegisteredTool) :=
  [("t", ⟨Json.null, create_handler "t" boom_rex⟩)]

/-- A `tools/call` request for tool `t` with no arguments member. -/
def call_t_req : JsonRpcRequest :=
  ⟨"2.0", some (Json.num 1), "tools/call", some (Json.obj [("name", Json.str "t")])⟩

/-! ## Helper lemmas -/

theorem replaceBraces_replaceChar (l : List Char) :
    replaceBraces (replaceChar '/' ['_'] l) = normalizePathChars l := by
  induction l with
  | nil => rfl
  | cons ch rest ih =>
    by_cases h : ch = '/'
    · subst h
      simp [replaceChar, replaceBraces, normalizePathChars, ih]
    · by_cases hb : ch = '{' ∨ ch = '}'
      · simp [replaceChar, replaceBraces, normalizePathChars, h, hb, ih]
      · simp [replaceChar, replaceBraces, normalizePathChars, h, hb, ih]

theorem jLookup_insertKey_self (f : List (String × Json)) (k : String) (v : Json) :
    jLookup (insertKey f k v) k = some v := by
  induction f with
  | nil => simp [insertKey, jLookup]
  | cons p rest ih =>
    obtain ⟨k', v'⟩ := p
    by_cases h : k' = k
    · subst h
      simp [insertKey, jLookup]
    · simp [insertKey, jLookup, h, ih]

theorem jLookup_insertKey_ne (f : List (String × Json)) (k k' : String) (v : Json)
    (h : k ≠ k') : jLookup (insertKey f k' v) k = jLookup f k := by
  induction f with
  | nil => simp [insertKey, jLookup, Ne.symm h]
  | cons p rest ih =>
    obtain ⟨k'', v''⟩ := p
    by_cases h2 : k'' = k'
    · subst h2
      simp [insertKey, jLookup, Ne.symm h]
    · simp only [insertKey, if_neg h2]
      by_cases h3 : k'' = k
      · subst h3
        simp [jLookup]
      · simp [jLookup, h3, ih]

theorem hasKey_insertKey_self (f : List (String × Json)) (k : String) (v : Json) :
    hasKey (insertKey f k v) k = true := by
  simp [hasKey, jLookup_insertKey_self]

theorem hasKey_insertKey_ne (f : List (String × Json)) (k k' : String) (v : Json)
    (h : k ≠ k') : hasKey (insertKey f k' v) k = hasKey f k := by
  simp [hasKey, jLookup_insertKey_ne f k k' v h]

theorem exists_in_mcp_scan_eq_find (route method : String) (rs : List RouteSelection) :
    exists_in_mcp_scan rs route method =
      (match rs.find?
          (fun sel => trimTrailingSlashes sel.path = trimTrailingSlashes route) with
       | some sel => sel.methods.any (fun m => strToUpper m = strToUpper method)
       | none => false) := by
  induction rs with
  | nil => rfl
  | cons sel rest ih =>
    by_cases h : trimTrailingSlashes sel.path = trimTrailingSlashes route
    · simp [exists_in_mcp_scan, List.find?, h]
    · simp [exists_in_mcp_scan, List.find?, h, ih]

/-! ## Claim theorems -/

/-- C3, counterexample: the code's normalizer maps `("/users/{id}", "GET")`
to `"get_users___id__"` (three underscores before `id`), not to the claimed
`"get_users__id__"`; it performs no `-` to `_` replacement
(`normalize("/a-b") = "get_a-b"`), keeps characters outside `[A-Za-z0-9_-]`
such as `.`, and does not truncate to 60 characters. -/
theorem c3_normalize_counterexample :
    normalize_tool_name "/users/\x7bid\x7d" "GET" = "get_users___id__" ∧
    normalize_tool_name "/users/\x7bid\x7d" "GET" ≠ "get_users__id__" ∧
    normalize_tool_name "/a-b" "GET" = "get_a-b" ∧
    '.' ∈ (normalize_tool_name "/a.b" "GET").data ∧
    60 < (normalize_tool_name (String.mk (List.replicate 70 'a')) "GET").length := by
  refine ⟨by decide, by decide, by decide, by decide, by decide⟩

/-- C3, amended: tool-name normalization is a deterministic pure function of
`(path, method)` that strips all leading slashes, replaces `/` with `_` and
each of `{`, `}` with `__`, prefixes the lowercased method plus `_` and
lowercases the result; it performs no dash replacement, no character-set
restriction and no truncation, and `normalize("/users/{id}", "GET")` equals
`"get_users___id__"`. -/
theorem c3_normalize_amended :
    (∀ path method, normalize_tool_name path method = normalizeAmendedSpec path method) ∧
    normalize_tool_name "/users/\x7bid\x7d" "GET" = "get_users___id__" := by
  constructor
  · intro path method
    simp only [normalize_tool_name, normalizeAmendedSpec, replaceBraces_replaceChar]
  · decide

/-- C6, counterexample: `exists_in_mcp` strips all trailing slashes, not a
single one: with the configured route `/users//` and methods `[GET]` the
code answers `true` for the query `("/users", "GET")`, while the claimed
single-slash comparison answers `false`. -/
theorem c6_trailing_slash_counterexample :
    exists_in_mcp doubleslash_routes "/users" "GET" = true ∧
    exists_in_mcp_claim doubleslash_routes "/users" "GET" = false := by
  refine ⟨by decide, by decide⟩

/-- C6, amended: `exists_in_mcp` returns true for every query when no
routes are configured; otherwise the first configured entry whose path
matches the query path after stripping all trailing slashes from both sides
decides the answer by case-insensitive method membership, and with no path
match the answer is false; in particular both claimed `/users` examples
hold. -/
theorem c6_exists_in_mcp_amended :
    (∀ adjRoutes route method,
      exists_in_mcp adjRoutes route method = existsInMcpAmended adjRoutes route method) ∧
    (∀ route method, exists_in_mcp [] route method = true) ∧
    exists_in_mcp users_routes "/users/" "get" = true ∧
    exists_in_mcp users_routes "/users" "GET" = true := by
  refine ⟨?_, ?_, by decide, by decide⟩
  · intro adjRoutes route method
    unfold exists_in_mcp existsInMcpAmended
    by_cases h : adjRoutes.isEmpty
    · simp [h]
    · simp [h, exists_in_mcp_scan_eq_find]
  · intro route method
    rfl

/-- C2, counterexample: a route with no path, query or body parameters
(`GET /health`) yields an input schema without a `properties` key — the
schema is exactly `\x7b"type": "object"\x7d`. -/
theorem c2_properties_counterexample :
    create_input_schema health_route (fun _ => none) none = [("type", Json.str "object")] ∧
    hasKey (create_input_schema health_route (fun _ => none) none) "properties" = false := by
  refine ⟨rfl, rfl⟩

/-- C2, amended: the generated input schema carries a `properties` key
exactly when at least one property (path parameter, query parameter or
body) was accumulated; nested schemas translated from OpenAPI object types
always carry `properties`, but the fallback arm for unsupported schema
kinds emits `type: object` without one. -/
theorem c2_properties_amended :
    (∀ route getParamSchema bodySchema,
      hasKey (create_input_schema route getParamSchema bodySchema) "properties" =
        !(input_schema_properties route getParamSchema bodySchema).isEmpty) ∧
    (∀ props required d,
      hasKey (((schema_to_json_schema (.objectT props required d)).asObject).getD [])
        "properties" = true) ∧
    (∀ d, hasKey (((schema_to_json_schema (.otherT d)).asObject).getD [])
        "properties" = false) := by
  refine ⟨?_, ?_, ?_⟩
  · intro route getParamSchema bodySchema
    have hreq : ∀ f v, hasKey (insertKey f "required" v) "properties" =
        hasKey f "properties" :=
      fun f v => hasKey_insertKey_ne f "properties" "required" v (by decide)
    have hbase : hasKey (insertKey [] "type" (Json.str "object")) "properties" = false := by
      simp [insertKey, hasKey, jLookup]
    unfold create_input_schema
    by_cases hp : (input_schema_properties route getParamSchema bodySchema).isEmpty
    · by_cases hr : (extract_path_params route.path).isEmpty
      · simp [hp, hr, hbase]
      · simp [hp, hr, hreq, hbase]
    · by_cases hr : (extract_path_params route.path).isEmpty
      · simp [hp, hr, hasKey_insertKey_self]
      · simp [hp, hr, hreq, hasKey_insertKey_self]
  · intro props required d
    cases required with
    | nil => rfl
    | cons r rest => rfl
  · intro d
    rfl

set_option maxRecDepth 8192 in
/-- C8, counterexample: tool descriptions are the plain
`"METHOD path - description"` format string: HTML tags survive
(`GET /x - <b>hi</b>`), an empty description yields `"GET /x - "` rather
than a `"No description provided"` substitution, and an 800-character
description yields a 809-character result, beyond the claimed 700-character
truncation. -/
theorem c8_description_counterexample :
    generate_tool_description html_route = "GET /x - <b>hi</b>" ∧
    '<' ∈ (generate_tool_description html_route).data ∧
    generate_tool_description blank_route = "GET /x - " ∧
    703 < (generate_tool_description long_route).length := by
  refine ⟨by decide, by decide, by decide, by decide⟩

/-- C8, amended: a compiled tool description is exactly the route's method,
a space, the path, the separator `" - "` and the verbatim route description
(the operation description, else summary, possibly overridden by the
adjuster): no HTML stripping, whitespace collapsing, empty-string
substitution or truncation occurs, so the length is always the sum of the
component lengths plus four. -/
theorem c8_description_amended :
    (∀ route : RouteConfig, (generate_tool_description route).data =
      route.method.data ++ ' ' ::
        (route.path.data ++ ' ' :: '-' :: ' ' :: route.description.data)) ∧
    (∀ route : RouteConfig, (generate_tool_description route).length =
      route.method.length + route.path.length + route.description.length + 4) ∧
    (∀ descs path method descr summary,
      create_route_config_description descs path method descr summary =
        get_description descs path method
          (resolve_operation_description descr summary)) ∧
    generate_tool_description blank_route = "GET /x - " := by
  refine ⟨?_, ?_, fun _ _ _ _ _ => rfl, by decide⟩
  · intro route
    simp [generate_tool_description, String.data_append]
  · intro route
    have h : (generate_tool_description route).data =
        route.method.data ++ ' ' ::
          (route.path.data ++ ' ' :: '-' :: ' ' :: route.description.data) := by
      simp [generate_tool_description, String.data_append]
    show (generate_tool_description route).data.length =
      route.method.data.length + route.path.data.length +
        route.description.data.length + 4
    rw [h]
    simp only [List.length_append, List.length_cons]
    omega

/-- C1: for a `tools/call` request, unparsable params yield error -32602;
an unregistered tool name yields error -32601; a failing route executor
yields error -32000 carrying the failure message; and an `HttpResponse`
from the executor yields a successful result whose `isError` flag is true
exactly when the status code is at least 400, with the response body as
text content in both cases. -/
theorem c1_tools_call_dispatch (server_info : Json)
    (tools : List (String × RegisteredTool)) (req : JsonRpcRequest)
    (hm : req.method = "tools/call") :
    (parseCallToolParam ((req.params).getD Json.null) = none →
      process_request server_info tools req =
        ⟨"2.0", req.id, none, some ⟨-32602, "Invalid params", none⟩⟩) ∧
    (∀ p, parseCallToolParam ((req.params).getD Json.null) = some p →
      registryGet tools p.name = none →
      process_request server_info tools req =
        ⟨"2.0", req.id, none, some ⟨-32601, "Tool not found", none⟩⟩) ∧
    (∀ p tool nm rex, parseCallToolParam ((req.params).getD Json.null) = some p →
      registryGet tools p.name = some tool →
      tool.executor = create_handler nm rex →
      (∀ e, rex (handler_params_string p) = .error e →
        process_request server_info tools req =
          ⟨"2.0", req.id, none,
            some ⟨-32000,
              "Failed to execute request for tool " ++ nm ++ ": " ++ e, none⟩⟩) ∧
      (∀ resp, rex (handler_params_string p) = .ok resp →
        process_request server_info tools req =
          ⟨"2.0", req.id,
            some (Json.obj
              [("content", Json.arr [Json.obj
                 [("type", Json.str "text"), ("text", Json.str resp.body)]]),
               ("isError", Json.bool (decide (400 ≤ resp.status_code)))]),
            none⟩)) := by
  have hd : mcpMethodFrom req.method = McpMethod.ToolsCallM := by
    rw [hm]
    rfl
  refine ⟨?_, ?_, ?_⟩
  · intro hp
    simp [process_request, hd, hp]
  · intro p hp hreg
    simp [process_request, hd, hp, hreg]
  · intro p tool nm rex hp hreg hex
    constructor
    · intro e he
      simp [process_request, hd, hp, hreg, hex, create_handler, he]
    · intro resp hr
      by_cases hs : 400 ≤ resp.status_code
      · simp [process_request, hd, hp, hreg, hex, create_handler, hr, hs,
          callToolResultToJson]
      · simp [process_request, hd, hp, hreg, hex, create_handler, hr, hs,
          callToolResultToJson]

/-- C1, witness: calling the registered tool `t` whose executor fails with
`boom` produces the -32000 error carrying the wrapped failure message. -/
theorem c1_tools_call_dispatch_witness :
    process_request Json.null boom_tools call_t_req =
      ⟨"2.0", some (Json.num 1), none,
        some ⟨-32000, "Failed to execute request for tool t: boom", none⟩⟩ :=
  ((c1_tools_call_dispatch Json.null boom_tools call_t_req rfl).2.2
    ⟨"t", none⟩ ⟨Json.null, create_handler "t" boom_rex⟩ "t" boom_rex
    rfl rfl rfl).1 "boom" rfl

/-- C5: a message that fails to parse produces exactly one response, with
`id` null and error code -32700, and the loop then continues with the rest
of the stream; a parsed request without an `id` produces no output at all;
and the transport-closed signal ends the loop cleanly with a non-error
result. -/
theorem c5_runner_loop :
    (∀ proc e rest outs, run proc rest = .ok outs →
      run proc (.message (.error e) :: rest) =
        .ok (Json.obj [("jsonrpc", Json.str "2.0"), ("id", Json.null),
          ("error", Json.obj [("code", Json.num (-32700)),
            ("message", Json.str ("Parse error: " ++ e))])] :: outs)) ∧
    (∀ proc e, run proc [.message (.error e)] =
      .ok [Json.obj [("jsonrpc", Json.str "2.0"), ("id", Json.null),
        ("error", Json.obj [("code", Json.num (-32700)),
          ("message", Json.str ("Parse error: " ++ e))])]]) ∧
    (∀ proc req rest, req.id = none →
      run proc (.message (.ok req) :: rest) = run proc rest) ∧
    (∀ proc rest, run proc (.closed :: rest) = .ok []) := by
  refine ⟨?_, ?_, ?_, ?_⟩
  · intro proc e rest outs h
    simp [run, h, serialize_response]
  · intro proc e
    rfl
  · intro proc req rest h
    simp [run, h]
  · intro proc rest
    rfl

/-- C5, witness: a malformed message followed by the closed signal yields
exactly the single -32700 response. -/
theorem c5_runner_loop_witness :
    run (fun _ => ⟨"2.0", none, none, none⟩)
      [.message (.error "bad"), .closed] =
      .ok [Json.obj [("jsonrpc", Json.str "2.0"), ("id", Json.null),
        ("error", Json.obj [("code", Json.num (-32700)),
          ("message", Json.str ("Parse error: " ++ "bad"))])]] :=
  c5_runner_loop.1 (fun _ => ⟨"2.0", none, none, none⟩) "bad" [.closed] [] rfl

/-- C10: a `notifications/initialized` request carrying an `id` is answered
by the processor with a response whose `id` is `none`, and the runner,
which writes because the request had an `id`, therefore transmits a JSON
object whose `id` member is null and which contains neither a `result` nor
an `error` member. -/
theorem c10_initialized_with_id (server_info : Json)
    (tools : List (String × RegisteredTool)) (jr : String) (idv : Json)
    (ps : Option Json) :
    (process_request server_info tools
      ⟨jr, some idv, "notifications/initialized", ps⟩).id = none ∧
    run (process_request server_info tools)
      [.message (.ok ⟨jr, some idv, "notifications/initialized", ps⟩)] =
      .ok [Json.obj [("jsonrpc", Json.str "2.0"), ("id", Json.null)]] := by
  exact ⟨rfl, rfl⟩

/-- C4, counterexample: under POST the declared query parameter `sort` is
still sent as a query-string pair — the claimed "no query additions" fails:
the assembled POST request carries query `sort=asc` alongside the JSON body
`\x7b"extra": "x"\x7d`. -/
theorem c4_post_query_counterexample :
    route_executor_request demo_service items_post_route (some items_args) =
      .ok ⟨"http://api/items/5", "POST", [("Content-Type", "application/json")],
        [("sort", Json.str "asc")], some (Json.obj [("extra", Json.str "x")])⟩ ∧
    (executor_query (route_executor_request demo_service items_post_route
      (some items_args))).isEmpty = false := by
  exact ⟨rfl, rfl⟩

/-- C4, amended: under GET the example yields URL `http://api/items/5`,
query pairs `sort=asc` and `extra=x` and no body; under POST it yields the
same URL, the declared query pair `sort=asc` (declared query parameters are
appended for every method) and JSON body `\x7b"extra": "x"\x7d`.
In general a GET request never carries a body, and a JSON body, when
present, is a non-empty leftover object. -/
theorem c4_executor_amended :
    route_executor_request demo_service items_get_route (some items_args) =
      .ok ⟨"http://api/items/5", "GET", [("Content-Type", "application/json")],
        [("sort", Json.str "asc"), ("extra", Json.str "x")], none⟩ ∧
    route_executor_request demo_service items_post_route (some items_args) =
      .ok ⟨"http://api/items/5", "POST", [("Content-Type", "application/json")],
        [("sort", Json.str "asc")], some (Json.obj [("extra", Json.str "x")])⟩ ∧
    (∀ svc cfg parsed r, cfg.method = "GET" →
      route_executor_request svc cfg parsed = .ok r → r.body = none) ∧
    (∀ svc cfg parsed r l, route_executor_request svc cfg parsed = .ok r →
      r.body = some (Json.obj l) → l ≠ []) := by
  have core_get : ∀ svc cfg ps r, cfg.method = "GET" →
      route_executor_request_core svc cfg ps = .ok r → r.body = none := by
    intro svc cfg ps r hGET h
    simp [route_executor_request_core, hGET] at h
    split at h
    · injection h with h2
      subst h2
      rfl
    · injection h with h2
      subst h2
      rfl
  have core_body : ∀ svc cfg ps r l,
      route_executor_request_core svc cfg ps = .ok r →
      r.body = some (Json.obj l) → l ≠ [] := by
    intro svc cfg ps r l h hb
    simp only [route_executor_request_core] at h
    split at h
    · split at h
      · injection h with h2
        subst h2
        simp at hb
      · split at h
        · injection h with h2
          subst h2
          simp at hb
        · injection h with h2
          subst h2
          simp only [Option.some.injEq] at hb
          have h3 := Json.obj.inj hb
          rw [← h3]
          intro hcon
          simp_all
    · exact Except.noConfusion h
  refine ⟨rfl, rfl, ?_, ?_⟩
  · intro svc cfg parsed r hGET h
    cases parsed with
    | none => exact Except.noConfusion h
    | some v => exact core_get svc cfg _ r hGET h
  · intro svc cfg parsed r l h hb
    cases parsed with
    | none => exact Except.noConfusion h
    | some v => exact core_body svc cfg _ r l h hb

/-- C4, witness: the GET example request indeed carries no body. -/
theorem c4_executor_amended_witness :
    (⟨"http://api/items/5", "GET", [("Content-Type", "application/json")],
      [("sort", Json.str "asc"), ("extra", Json.str "x")], none⟩ : BuiltRequest).body
      = none :=
  (c4_executor_amended.2.2.1) demo_service items_get_route (some items_args)
    ⟨"http://api/items/5", "GET", [("Content-Type", "application/json")],
      [("sort", Json.str "asc"), ("extra", Json.str "x")], none⟩ rfl rfl

/-- C7, counterexample: a valid JSON argument value of non-object type (the
number 3) is not rejected — the executor proceeds with an empty argument
map and assembles the request. -/
theorem c7_nonobject_counterexample :
    route_executor_request demo_service ping_route (some (Json.num 3)) =
      .ok ⟨"http://api/ping", "GET", [], [], none⟩ ∧
    isHardError (route_executor_request demo_service ping_route
      (some (Json.num 3))) = false := by
  exact ⟨rfl, rfl⟩

/-- C7, amended: an argument string that is not valid JSON is a typed input
error, but a valid JSON value of non-object type is coerced to the empty
argument object (`as_object().cloned().unwrap_or_default()`) and the HTTP
call proceeds. -/
theorem c7_arguments_amended :
    (∀ svc cfg, route_executor_request svc cfg none =
      .error "Failed to parse parameters as JSON") ∧
    (∀ svc cfg v, v.asObject = none →
      route_executor_request svc cfg (some v) =
        route_executor_request svc cfg (some (Json.obj []))) ∧
    isHardError (route_executor_request demo_service ping_route
      (some (Json.num 3))) = false := by
  refine ⟨fun svc cfg => rfl, ?_, rfl⟩
  intro svc cfg v h
  have h2 : (Json.obj []).asObject = some [] := rfl
  simp only [route_executor_request, h, h2, Option.getD]

/-- C7, witness: the non-object value 3 behaves exactly like an empty
argument object. -/
theorem c7_arguments_amended_witness :
    route_executor_request demo_service ping_route (some (Json.num 3)) =
      route_executor_request demo_service ping_route (some (Json.obj [])) :=
  c7_arguments_amended.2.1 demo_service ping_route (Json.num 3) rfl

/-- C9: path-template substitution applies only to JSON string values: a
parameter map whose values are all non-strings leaves the URL untouched and
consumes no key, and concretely an `id` of numeric value 7 leaves the
`\x7bid\x7d` placeholder in the URL and is routed to the query string under
GET and to the JSON body under POST. -/
theorem c9_nonstring_path_params :
    (∀ url params, (∀ p ∈ params, p.2.isString = false) →
      subst_path_params url params = (url, [])) ∧
    route_executor_request demo_service items_get_route
        (some (Json.obj [("id", Json.num 7)])) =
      .ok ⟨"http://api/items/\x7bid\x7d", "GET",
        [("Content-Type", "application/json")], [("id", Json.num 7)], none⟩ ∧
    route_executor_request demo_service items_post_route
        (some (Json.obj [("id", Json.num 7)])) =
      .ok ⟨"http://api/items/\x7bid\x7d", "POST",
        [("Content-Type", "application/json")], [],
        some (Json.obj [("id", Json.num 7)])⟩ := by
  refine ⟨?_, rfl, rfl⟩
  intro url params
  induction params with
  | nil => intro h; rfl
  | cons p rest ih =>
    intro h
    obtain ⟨k, v⟩ := p
    have hv : Json.isString v = false := h (k, v) (List.mem_cons_self _ _)
    have hrest : ∀ q ∈ rest, q.2.isString = false :=
      fun q hq => h q (List.mem_cons_of_mem _ hq)
    cases v with
    | str s => simp [Json.isString] at hv
    | null => simpa [subst_path_params] using ih hrest
    | bool b => simpa [subst_path_params] using ih hrest
    | num n => simpa [subst_path_params] using ih hrest
    | arr elems => simpa [subst_path_params] using ih hrest
    | obj fields => simpa [subst_path_params] using ih hrest

/-- C9, witness: a singleton map with a numeric value substitutes nothing. -/
theorem c9_nonstring_path_params_witness :
    subst_path_params ['x'] [("a", Json.num 1)] = (['x'], []) :=
  c9_nonstring_path_params.1 ['x'] [("a", Json.num 1)]
    (by
      intro p hp
      rw [List.mem_singleton] at hp
      subst hp
      rfl)

end YasMcp
